import Mathlib

/-!
# Verification of the dailycodepush frontend/extension glue code

Shallow embedding of the string processing, request building, submission
workflow and extension cookie relay of the repository, with theorems that
settle the claims about it.  JavaScript strings are modelled as Lean
`String`/`List Char`; nullable values as `Option`; fallible async calls as
`Except` oracles; regex matching is modelled by explicit leftmost scanning
functions mirroring the exact patterns in the source.
-/

namespace DailyCodePush

/-! ## JavaScript string primitives -/

/-- The characters JavaScript counts as whitespace for `trim`, `trimEnd`
and the regex class `\s`: ASCII whitespace, NBSP, the Unicode space
separators, line/paragraph separators and the BOM. -/
def jsWsChars : List Char :=
  [' ', '\t', '\n', '\r', Char.ofNat 0x0b, Char.ofNat 0x0c, Char.ofNat 0xa0,
   Char.ofNat 0x1680, Char.ofNat 0x2000, Char.ofNat 0x2001, Char.ofNat 0x2002,
   Char.ofNat 0x2003, Char.ofNat 0x2004, Char.ofNat 0x2005, Char.ofNat 0x2006,
   Char.ofNat 0x2007, Char.ofNat 0x2008, Char.ofNat 0x2009, Char.ofNat 0x200a,
   Char.ofNat 0x2028, Char.ofNat 0x2029, Char.ofNat 0x202f, Char.ofNat 0x205f,
   Char.ofNat 0x3000, Char.ofNat 0xfeff]

/-- JavaScript whitespace test. -/
def isJsWs (c : Char) : Bool := jsWsChars.contains c

/-- `String.prototype.trimEnd` on a character list. -/
def jsTrimEndL (l : List Char) : List Char :=
  (l.reverse.dropWhile isJsWs).reverse

/-- `String.prototype.trim` on a character list. -/
def jsTrimL (l : List Char) : List Char :=
  jsTrimEndL (l.dropWhile isJsWs)

/-- `String.prototype.trimEnd`. -/
def jsTrimEnd (s : String) : String := ⟨jsTrimEndL s.data⟩

/-- `String.prototype.trim`. -/
def jsTrim (s : String) : String := ⟨jsTrimL s.data⟩

/-- JavaScript truthiness of a nullable string: `null`, `undefined` and
the empty string are falsy. -/
def jsFalsyStr : Option String → Bool
  | none => true
  | some s => s.isEmpty

/-- `value.replace(pat, repl)` with a global literal pattern: scan left to
right, replace each non-overlapping occurrence, never rescanning the
replacement.  The fuel is the length of the list; every step consumes at
least one character, so the fuel never runs out on the initial call. -/
def replaceAllL (pat repl : List Char) : Nat → List Char → List Char
  | 0, l => l
  | _ + 1, [] => []
  | fuel + 1, c :: cs =>
    if !pat.isEmpty && pat.isPrefixOf (c :: cs) then
      repl ++ replaceAllL pat repl fuel ((c :: cs).drop pat.length)
    else
      c :: replaceAllL pat repl fuel cs

/-- Global literal-pattern `String.prototype.replace`. -/
def replaceAllS (pat repl s : String) : String :=
  ⟨replaceAllL pat.data repl.data s.data.length s.data⟩

/-! ## Leftmost regex scanning

`splitFirst m fuel l` finds the leftmost position of `l` at which the
anchored matcher `m` succeeds, returning the characters before that
position and what the matcher left over; `scanFirst` returns the
matcher's own result at the leftmost successful position.  With
`fuel = l.length` every start position of `l` (including the empty
suffix) is tried in order, exactly like a JavaScript regex search. -/

/-- Anchored literal matcher: consume `pat` if it is a prefix. -/
def litAt (pat : List Char) (l : List Char) : Option (List Char) :=
  if pat.isPrefixOf l then some (l.drop pat.length) else none

/-- Anchored case-insensitive matcher: `pat` is given lowercase and is
compared against the lowercased input, as a `/.../i` literal does. -/
def ciStarts : List Char → List Char → Option (List Char)
  | [], l => some l
  | _ :: _, [] => none
  | p :: ps, c :: cs => if c.toLower = p then ciStarts ps cs else none

/-- Leftmost split: characters before the first anchored match of `m`,
and the rest after the match. -/
def splitFirst (m : List Char → Option (List Char)) :
    Nat → List Char → Option (List Char × List Char)
  | 0, l => (m l).map fun rest => (([] : List Char), rest)
  | fuel + 1, l =>
    match m l with
    | some rest => some ([], rest)
    | none =>
      match l with
      | [] => none
      | c :: cs => (splitFirst m fuel cs).map fun p => (c :: p.1, p.2)

/-- Leftmost result of an anchored matcher. -/
def scanFirst (m : List Char → Option (List Char)) :
    Nat → List Char → Option (List Char)
  | 0, l => m l
  | fuel + 1, l =>
    match m l with
    | some r => some r
    | none =>
      match l with
      | [] => none
      | _ :: cs => scanFirst m fuel cs

/-! ## SolutionViewer.tsx: code extraction

`decodeHtml`, `normalizeEscapes` and `extractCodeFromContent` from
`src/frontend/src/components/SolutionViewer.tsx`. -/

/-- One br-tag match of `/<br\s*\/?>/gi` anchored after the opening
`<br`: greedy whitespace, an optional slash, then `>`; returns what is
left after the tag. -/
def brTail : List Char → Option (List Char)
  | [] => none
  | c :: cs =>
    if isJsWs c then brTail cs
    else if c = '/' then
      match cs with
      | d :: rest => if d = '>' then some rest else none
      | [] => none
    else if c = '>' then some cs
    else none

/-- Anchored match of `/<br\s*\/?>/i`. -/
def brAt : List Char → Option (List Char)
  | '<' :: b :: r :: rest =>
    if (b = 'b' || b = 'B') && (r = 'r' || r = 'R') then brTail rest else none
  | _ => none

/-- Global replacement of `/<br\s*\/?>/gi` by a newline.  Each recursive
step consumes at least one character (a br tag is at least four), so
fuel equal to the length suffices. -/
def replaceBrL : Nat → List Char → List Char
  | 0, l => l
  | _ + 1, [] => []
  | fuel + 1, c :: cs =>
    match brAt (c :: cs) with
    | some rest => '\n' :: replaceBrL fuel rest
    | none => c :: replaceBrL fuel cs

/-- `decodeHtml` from SolutionViewer.tsx: the five entity replacements
followed by the br-tag replacement, in source order. -/
def decodeHtml (snippet : String) : String :=
  let s1 := replaceAllS "&lt;" "<" snippet
  let s2 := replaceAllS "&gt;" ">" s1
  let s3 := replaceAllS "&amp;" "&" s2
  let s4 := replaceAllS "&quot;" "\"" s3
  let s5 := replaceAllS "&#39;" "'" s4
  ⟨replaceBrL s5.data.length s5.data⟩

/-- `normalizeEscapes` from SolutionViewer.tsx: six global literal
replacements in source order (`\\n`, `\\t`, `\\r`, `\\"`, `\\'`,
`\\\\`, each written here as its two source characters). -/
def normalizeEscapes (value : String) : String :=
  let s1 := replaceAllS "\\n" "\n" value
  let s2 := replaceAllS "\\t" "\t" s1
  let s3 := replaceAllS "\\r" "\r" s2
  let s4 := replaceAllS "\\\"" "\"" s3
  let s5 := replaceAllS "\\'" "'" s4
  replaceAllS "\\\\" "\\" s5

/-- Anchored match of ` ```[^\n]*\n([\s\S]*?)``` `: an opening fence,
the greedy run of non-newline characters up to the first newline, then
the lazy body up to the first closing fence.  Returns capture group 1. -/
def fenceAt (l : List Char) : Option (List Char) :=
  if "```".data.isPrefixOf l then
    let rest := l.drop 3
    match splitFirst (litAt "\n".data) rest.length rest with
    | none => none
    | some (_, afterNl) =>
      match splitFirst (litAt "```".data) afterNl.length afterNl with
      | none => none
      | some (body, _) => some body
  else none

/-- Capture group 1 of the first match of ` /```[^\n]*\n([\s\S]*?)```/ `. -/
def firstFenceBody (s : String) : Option String :=
  (scanFirst fenceAt s.data.length s.data).map fun l => ⟨l⟩

/-- Anchored match of `<code[^>]*>([\s\S]*?)<\/code>` (case-insensitive):
`<code`, the greedy run of non-`>` characters up to the first `>`, then
the lazy body up to the first `</code>`.  Returns capture group 1. -/
def codeTagAt (l : List Char) : Option (List Char) :=
  match ciStarts "<code".data l with
  | none => none
  | some rest =>
    match splitFirst (litAt ">".data) rest.length rest with
    | none => none
    | some (_, afterGt) =>
      match splitFirst (ciStarts "</code>".data) afterGt.length afterGt with
      | none => none
      | some (body, _) => some body

/-- Capture group 1 of the first match of `/<code[^>]*>([\s\S]*?)<\/code>/i`. -/
def firstCodeInner (s : String) : Option String :=
  (scanFirst codeTagAt s.data.length s.data).map fun l => ⟨l⟩

/-- The `<code>` fallback branch of `extractCodeFromContent`: the first
`<code>` element whose inner text is not blank, HTML-decoded after a
trim and then trailing-trimmed; otherwise null. -/
def htmlCodeFallback (content : String) : Option String :=
  match firstCodeInner content with
  | some inner =>
    if !(jsTrim inner).isEmpty then some (jsTrimEnd (decodeHtml (jsTrim inner)))
    else none
  | none => none

/-- `extractCodeFromContent` from SolutionViewer.tsx. -/
def extractCodeFromContent (rawContent : Option String) : Option String :=
  match rawContent with
  | none => none
  | some raw =>
    if raw.isEmpty then none
    else
      let content := normalizeEscapes raw
      match firstFenceBody content with
      | some body =>
        if !(jsTrim body).isEmpty then some (jsTrimEnd body)
        else htmlCodeFallback content
      | none => htmlCodeFallback content

/-- The `displayCode` memo of SolutionViewer: the solution's own `code`
field when it is non-null and non-blank (trailing-trimmed), otherwise
whatever `extractCodeFromContent` extracts from its `content`. -/
def displayCode (code content : Option String) : Option String :=
  match code with
  | some c =>
    if !c.isEmpty && !(jsTrim c).isEmpty then some (jsTrimEnd c)
    else extractCodeFromContent content
  | none => extractCodeFromContent content

/-- C4's reading of the specification text, stated independently of the
early-return structure of the source: normalize escapes first, then the
body of the first fenced block when that body is not blank (reported
with its trailing whitespace removed), otherwise the HTML-decoded inner
text of the first code element when that inner text is not blank, and
otherwise null; null, undefined and empty input give null. -/
def extractCodeClaimed (input : Option String) : Option String :=
  match input with
  | none => none
  | some raw =>
    if raw.isEmpty then none
    else
      let content := normalizeEscapes raw
      let fenced :=
        match firstFenceBody content with
        | some body => if (jsTrim body).isEmpty then none else some (jsTrimEnd body)
        | none => none
      let decoded :=
        match firstCodeInner content with
        | some inner =>
          if (jsTrim inner).isEmpty then none
          else some (jsTrimEnd (decodeHtml (jsTrim inner)))
        | none => none
      match fenced with
      | some body => some body
      | none => decoded

/-! ## lib/types.ts: the DTOs the dashboard exchanges -/

/-- `SubmissionStep.status` from lib/types.ts. -/
inductive StepStatus
  | info
  | success
  | error
deriving DecidableEq, Repr

/-- `SubmissionStep` from lib/types.ts. -/
structure SubmissionStep where
  step : String
  status : StepStatus
  detail : Option String
deriving DecidableEq, Repr

/-- `SubmissionResult` from lib/types.ts (`submission_id` may be a
number or a string in the source, here a sum). -/
structure SubmissionResult where
  submission_id : Option (Int ⊕ String)
  state : Option String
  status_msg : Option String
  lang : Option String
  runtime : Option String
  memory : Option String
  total_correct : Option Int
  total_testcases : Option Int
  last_testcase : Option String
  expected_output : Option String
  code_output : Option String
  runtime_error : Option String
  compile_error : Option String
deriving DecidableEq, Repr

/-- `SubmitSolutionPayload` from lib/types.ts. -/
structure SubmitSolutionPayload where
  slug : String
  language : String
  code : String
deriving DecidableEq, Repr

/-- `SubmitSolutionResponse` from lib/types.ts. -/
structure SubmitSolutionResponse where
  ok : Bool
  steps : List SubmissionStep
  result : Option SubmissionResult
  error : Option String
deriving DecidableEq, Repr

/-! ## SolutionViewer.tsx: local-storage snapshot persistence -/

/-- `STORAGE_KEY_PREFIX` and `getStorageKey` from SolutionViewer.tsx. -/
def STORAGE_KEY_PREFIX : String := "leetcode-submission:"

/-- The per-problem local-storage key. -/
def getStorageKey (slug : String) : String := STORAGE_KEY_PREFIX ++ slug

/-- The snapshot object written to local storage. -/
structure SubmissionSnapshot where
  steps : List SubmissionStep
  result : Option SubmissionResult
  error : Option String
deriving DecidableEq, Repr

/-- A local-storage operation. -/
inductive StorageOp
  | removeItem (key : String)
  | setItem (key : String) (value : SubmissionSnapshot)
deriving DecidableEq, Repr

/-- The snapshot persistence effect of SolutionViewer.tsx (lines
442-463): no operation when the slug is falsy; remove the key when the
step list is empty and both the result and the error are falsy;
otherwise overwrite the key with the snapshot. -/
def persistSnapshot (questionSlug : Option String)
    (steps : List SubmissionStep) (result : Option SubmissionResult)
    (error : Option String) : Option StorageOp :=
  if jsFalsyStr questionSlug then none
  else
    let slug := questionSlug.getD ""
    if steps.isEmpty && result.isNone && jsFalsyStr error then
      some (.removeItem (getStorageKey slug))
    else
      some (.setItem (getStorageKey slug) ⟨steps, result, error⟩)

/-! ## SolutionViewer.tsx: the submission workflow -/

/-- The state `handleSubmit` leaves in the `submissionSteps`,
`submissionResult` and `submissionError` hooks. -/
structure SubmissionUiState where
  steps : List SubmissionStep
  result : Option SubmissionResult
  error : Option String
deriving DecidableEq, Repr

/-- The network/extension interactions `handleSubmit` can issue, in the
order it issues them. -/
inductive WorkflowCall
  | fetchCookies
  | storeSession (leetcodeSession csrfToken : String)
  | submitCall (payload : SubmitSolutionPayload)
  | loadSubmissions
deriving DecidableEq, Repr

/-- The `start` step pushed at the beginning of the workflow. -/
def startStep : SubmissionStep :=
  ⟨"start", .info, some "Starting submission workflow."⟩

/-- `handleSubmit` from SolutionViewer.tsx (lines 366-430), with the
extension fetch, the session store and the submission request as
`Except` oracles.  Returns the calls issued in order together with the
final submission UI state. -/
def handleSubmit (questionSlug dispCode : Option String)
    (selectedLanguage : String)
    (fetchTokens : Except String (String × String))
    (store : String → String → Except String Unit)
    (submit : SubmitSolutionPayload → Except String SubmitSolutionResponse) :
    List WorkflowCall × SubmissionUiState :=
  if jsFalsyStr questionSlug then
    ([], ⟨[], none, some "Question slug is not available, cannot submit to LeetCode."⟩)
  else if jsFalsyStr dispCode then
    ([], ⟨[], none, some "No code snippet is available to submit."⟩)
  else
    let slug := questionSlug.getD ""
    let code := dispCode.getD ""
    match fetchTokens with
    | .error m => ([.fetchCookies], ⟨[], none, some m⟩)
    | .ok (s, c) =>
      match store s c with
      | .error m => ([.fetchCookies, .storeSession s c], ⟨[], none, some m⟩)
      | .ok _ =>
        let payload : SubmitSolutionPayload := ⟨slug, selectedLanguage, code⟩
        let calls := [.fetchCookies, .storeSession s c, .submitCall payload,
          WorkflowCall.loadSubmissions]
        match submit payload with
        | .error m => (calls, ⟨[startStep], none, some m⟩)
        | .ok resp =>
          let steps := if resp.steps.isEmpty then [startStep] else resp.steps
          let err :=
            if !resp.ok then some (resp.error.getD "LeetCode submission failed.")
            else if jsFalsyStr resp.error then none
            else resp.error
          (calls, ⟨steps, resp.result, err⟩)

/-! ## Extension: serviceWorker.js and contentScript.js -/

/-- A browser cookie as the extension sees it. -/
structure Cookie where
  name : String
  value : String
deriving DecidableEq, Repr

/-- The payload the extension hands to the page. -/
structure ExtPayload where
  ok : Bool
  error : Option String
  leetcodeSession : Option String
  csrfToken : Option String
deriving DecidableEq, Repr

/-- The `LEETCODE_FETCH_COOKIES` listener of serviceWorker.js: an error
payload when the runtime reports an error, otherwise `ok` exactly when
both named cookies are found, carrying the first-found values (null when
absent). -/
def serviceWorkerRespond (lastError : Option String) (cookies : List Cookie) :
    ExtPayload :=
  match lastError with
  | some e => ⟨false, some e, none, none⟩
  | none =>
    let sessionCookie := cookies.find? fun ck => ck.name = "LEETCODE_SESSION"
    let csrfCookie := cookies.find? fun ck => ck.name = "csrftoken"
    ⟨sessionCookie.isSome && csrfCookie.isSome, none,
      sessionCookie.map Cookie.value, csrfCookie.map Cookie.value⟩

/-- The message relay of contentScript.js: on a runtime error an
`ok: false` payload with that error, on a missing response the fixed
`No response` payload, otherwise the service worker's payload unchanged,
always posted as a `LEETCODE_FETCH_COOKIES_RESPONSE` message. -/
def contentScriptRelay (lastError : Option String)
    (response : Option ExtPayload) : ExtPayload :=
  match lastError with
  | some e => ⟨false, some e, none, none⟩
  | none =>
    match response with
    | some p => p
    | none => ⟨false, some "No response from extension.", none, none⟩

/-! ## LeetCodeSessionConnector: the session bridge handler -/

/-- The connector's visible status values. -/
inductive ConnectorStatus
  | idle
  | fetching
  | success
  | error
  | disconnected
deriving DecidableEq, Repr

/-- What the connector's message handler did. -/
structure ConnectorOutcome where
  storeCalled : Bool
  status : ConnectorStatus
  message : Option String
deriving DecidableEq, Repr

/-- The `LEETCODE_FETCH_COOKIES_RESPONSE` handler of
LeetCodeSessionConnector: reject non-ok payloads and payloads missing
either token (null or empty), otherwise forward both tokens to the
backend session store and mark the session connected when the store
succeeds. -/
def connectorHandle (payload : ExtPayload)
    (store : String → String → Except String Unit) : ConnectorOutcome :=
  if !payload.ok then
    ⟨false, .error,
      some (payload.error.getD
        "Extension could not fetch cookies. Make sure you are logged in on leetcode.com.")⟩
  else if jsFalsyStr payload.leetcodeSession || jsFalsyStr payload.csrfToken then
    ⟨false, .error, some "Extension did not return both LEETCODE_SESSION and csrftoken cookies."⟩
  else
    match store (payload.leetcodeSession.getD "") (payload.csrfToken.getD "") with
    | .ok _ => ⟨true, .success, some "LeetCode session connected successfully."⟩
    | .error m => ⟨true, .error, some m⟩

/-! ## lib/api.ts: the request layer -/

/-- A backend request as the data layer builds it: HTTP method, path and
ordered query parameters. -/
structure ApiRequest where
  method : String
  path : String
  queryParams : List (String × String)
deriving DecidableEq, Repr

/-- The `API_BASE_URL.replace(/\/$/, '')` step of `request`: a single
trailing slash is stripped from the base. -/
def stripTrailingSlash (base : String) : String :=
  if base.data.getLast? = some '/' then ⟨base.data.dropLast⟩ else base

/-- The URL `request` addresses: the stripped base followed by the path. -/
def requestUrl (base path : String) : String :=
  stripTrailingSlash base ++ path

/-- `getPOTD` from lib/api.ts. -/
def getPOTDRequest : ApiRequest := ⟨"GET", "/api/potd", []⟩

/-- `getReferences` from lib/api.ts: a mandatory `slug` parameter and a
`lang` parameter only when the language argument is truthy. -/
def getReferencesRequest (slug : String) (language : Option String) : ApiRequest :=
  ⟨"GET", "/api/references",
    ("slug", slug) ::
      (match language with
       | some l => if l.isEmpty then [] else [("lang", l)]
       | none => [])⟩

/-- `getLeetCodeSessionStatus` from lib/api.ts. -/
def getLeetCodeSessionStatusRequest : ApiRequest :=
  ⟨"GET", "/api/leetcode/session", []⟩

/-- `storeLeetCodeSession` from lib/api.ts. -/
def storeLeetCodeSessionRequest : ApiRequest :=
  ⟨"POST", "/api/leetcode/session", []⟩

/-- `clearLeetCodeSession` from lib/api.ts. -/
def clearLeetCodeSessionRequest : ApiRequest :=
  ⟨"DELETE", "/api/leetcode/session", []⟩

/-- `submitSolution` from lib/api.ts. -/
def submitSolutionRequest : ApiRequest :=
  ⟨"POST", "/api/leetcode/submit", []⟩

/-- The default of the `limit` argument of `getRecentSubmissions`. -/
def defaultSubmissionsLimit : Int := 20

/-- `getRecentSubmissions` from lib/api.ts: `slug` plus a `limit`
clamped by `Math.max(1, Math.min(50, limit))`. -/
def getRecentSubmissionsRequest (slug : String) (limit : Int) : ApiRequest :=
  ⟨"GET", "/api/leetcode/submissions",
    [("slug", slug), ("limit", toString (max 1 (min 50 limit)))]⟩

/-- Every backend path addressed by a function of lib/api.ts, one entry
per function, in source order. -/
def dataLayerPaths : List String :=
  [getPOTDRequest.path, (getReferencesRequest "" none).path,
   getLeetCodeSessionStatusRequest.path, storeLeetCodeSessionRequest.path,
   clearLeetCodeSessionRequest.path, submitSolutionRequest.path,
   (getRecentSubmissionsRequest "" 20).path]

/-- The backend paths the specification names for the data layer. -/
def specNamedPaths : List String :=
  ["/api/potd", "/api/references", "/api/leetcode/submit", "/api/leetcode/submissions"]

/-! ## types.ts / PotdCard.tsx: difficulty -/

/-- The `'Easy' | 'Medium' | 'Hard'` union of `POTD.difficulty`. -/
inductive Difficulty
  | Easy
  | Medium
  | Hard
deriving DecidableEq, Repr

/-- Which strings inhabit the difficulty union of lib/types.ts. -/
def Difficulty.ofString? (s : String) : Option Difficulty :=
  if s = "Easy" then some .Easy
  else if s = "Medium" then some .Medium
  else if s = "Hard" then some .Hard
  else none

/-- The rendering of each difficulty. -/
def Difficulty.render : Difficulty → String
  | .Easy => "Easy"
  | .Medium => "Medium"
  | .Hard => "Hard"

/-- The `difficultyStyles` record of PotdCard.tsx, looked up by an
arbitrary string key the way a JavaScript property access does:
`undefined` (here `none`) for any key other than its three entries. -/
def difficultyStylesLookup (s : String) : Option String :=
  if s = "Easy" then some "bg-emerald-100 text-emerald-800 ring-emerald-200"
  else if s = "Medium" then some "bg-amber-100 text-amber-800 ring-amber-200"
  else if s = "Hard" then some "bg-rose-100 text-rose-800 ring-rose-200"
  else none

/-! ## The two LANGUAGES constants -/

namespace LanguagePicker

/-- `LANGUAGES` from the language picker component. -/
def LANGUAGES : List String :=
  ["python", "cpp", "java", "javascript", "typescript", "c", "csharp",
   "go", "rust", "kotlin", "swift"]

end LanguagePicker

namespace PotdCard

/-- `LANGUAGES` from PotdCard.tsx. -/
def LANGUAGES : List String :=
  ["python", "cpp", "java", "javascript", "typescript", "c", "csharp",
   "go", "rust", "kotlin", "swift"]

end PotdCard

/-! ## Helper lemmas -/

/-- The head surviving a `dropWhile` fails the predicate. -/
theorem dropWhile_head_false {p : Char → Bool} :
    ∀ {l : List Char} {c : Char} {cs : List Char},
      l.dropWhile p = c :: cs → p c = false := by
  intro l
  induction l with
  | nil => intro c cs h; simp [List.dropWhile] at h
  | cons a t ih =>
    intro c cs h
    rw [List.dropWhile_cons] at h
    split at h
    · exact ih h
    · rename_i hpa
      injection h with h1 _
      rw [← h1]
      simpa using hpa

/-- A trailing-trimmed string is empty or ends in (hence contains) a
non-whitespace character. -/
theorem jsTrimEnd_blank_or_witness (t : String) :
    jsTrimEnd t = "" ∨ ∃ c ∈ (jsTrimEnd t).data, isJsWs c = false := by
  rcases h : t.data.reverse.dropWhile isJsWs with _ | ⟨c, cs⟩
  · left
    show (⟨jsTrimEndL t.data⟩ : String) = ""
    simp [jsTrimEndL, h]
  · right
    refine ⟨c, ?_, dropWhile_head_false h⟩
    show c ∈ jsTrimEndL t.data
    simp [jsTrimEndL, h]

/-- Falsiness of a nullable string, propositionally. -/
theorem jsFalsyStr_iff (o : Option String) :
    jsFalsyStr o = true ↔ o = none ∨ o = some "" := by
  cases o with
  | none => simp [jsFalsyStr]
  | some s => simp [jsFalsyStr, String.isEmpty_iff]

/-- A nonempty string is not falsy. -/
theorem jsFalsyStr_some_ne {s : String} (h : s ≠ "") :
    jsFalsyStr (some s) = false := by
  rcases hb : jsFalsyStr (some s) with _ | _
  · rfl
  · rcases (jsFalsyStr_iff (some s)).mp hb with h' | h'
    · cases h'
    · exact absurd (Option.some.inj h') h

/-- Whatever the `<code>` fallback returns has been trailing-trimmed. -/
theorem htmlCodeFallback_trimEnd {content s : String}
    (h : htmlCodeFallback content = some s) : ∃ t, s = jsTrimEnd t := by
  unfold htmlCodeFallback at h
  split at h
  next inner _ =>
    split at h
    · exact ⟨decodeHtml (jsTrim inner), (Option.some.inj h).symm⟩
    · cases h
  next => cases h

/-- Whatever `extractCodeFromContent` returns has been trailing-trimmed. -/
theorem extractCodeFromContent_trimEnd {input : Option String} {s : String}
    (h : extractCodeFromContent input = some s) : ∃ t, s = jsTrimEnd t := by
  match input with
  | none => cases h
  | some raw =>
    unfold extractCodeFromContent at h
    simp only at h
    split at h
    · cases h
    · split at h
      next body _ =>
        split at h
        · exact ⟨body, (Option.some.inj h).symm⟩
        · exact htmlCodeFallback_trimEnd h
      next => exact htmlCodeFallback_trimEnd h

/-- Whatever `displayCode` returns has been trailing-trimmed. -/
theorem displayCode_trimEnd {code content : Option String} {s : String}
    (h : displayCode code content = some s) : ∃ t, s = jsTrimEnd t := by
  unfold displayCode at h
  split at h
  next c =>
    split at h
    · exact ⟨c, (Option.some.inj h).symm⟩
    · exact extractCodeFromContent_trimEnd h
  next => exact extractCodeFromContent_trimEnd h

/-! ## The claims -/

/-- C10: the LANGUAGES constant of the language picker component and the
LANGUAGES constant of the POTD card component are the same list of the
same eleven language identifiers in the same order. -/
theorem claim_C10_languages_equal :
    LanguagePicker.LANGUAGES = PotdCard.LANGUAGES ∧
      LanguagePicker.LANGUAGES.length = 11 :=
  ⟨rfl, rfl⟩

/-- C9: `getRecentSubmissions` always sends a `limit` query parameter
equal to `max 1 (min 50 limit)`, so the page size is clamped to 1..50,
and the default limit 20 is left unchanged by the clamp. -/
theorem claim_C9_limit_clamp :
    ∀ (slug : String) (limit : Int), ∃ v : Int,
      1 ≤ v ∧ v ≤ 50 ∧ v = max 1 (min 50 limit) ∧
      (getRecentSubmissionsRequest slug limit).queryParams =
        [("slug", slug), ("limit", toString v)] ∧
      defaultSubmissionsLimit = 20 ∧
      max 1 (min 50 defaultSubmissionsLimit) = defaultSubmissionsLimit := by
  intro slug limit
  exact ⟨max 1 (min 50 limit), le_max_left .., max_le (by norm_num) (min_le_left ..),
    rfl, rfl, rfl, rfl⟩

/-- C6 counterexample: `"Unknown"` is a present, nonempty difficulty
string, yet it does not inhabit the `POTD.difficulty` union and the
difficulty badge record has no entry for it, so a present difficulty is
not enough for the badge rendering to be defined. -/
theorem claim_C6_counterexample :
    Difficulty.ofString? "Unknown" = none ∧
      difficultyStylesLookup "Unknown" = none ∧ "Unknown" ≠ "" := by
  refine ⟨by decide, by decide, by decide⟩

/-- C6 amended: `POTD.difficulty` is constrained to the three-member
union Easy/Medium/Hard, and the difficulty badge rendering is defined
for exactly the values of that union — in particular for every value of
the union type. -/
theorem claim_C6_difficulty_amended :
    (∀ s : String,
      (Difficulty.ofString? s).isSome = (difficultyStylesLookup s).isSome) ∧
      (∀ d : Difficulty, (difficultyStylesLookup d.render).isSome = true) := by
  constructor
  · intro s
    unfold Difficulty.ofString? difficultyStylesLookup
    split_ifs <;> rfl
  · intro d
    cases d <;> rfl

/-- C5 counterexample: the data layer also addresses
`/api/leetcode/session` (status, store and clear), a backend path the
specification does not name, so it does not address exactly the named
paths. -/
theorem claim_C5_counterexample :
    getLeetCodeSessionStatusRequest.path = "/api/leetcode/session" ∧
      "/api/leetcode/session" ∈ dataLayerPaths ∧
      "/api/leetcode/session" ∉ specNamedPaths := by
  refine ⟨rfl, by decide, by decide⟩

/-- C5 amended: the four functions named by the specification address
exactly the spec's paths with the stated methods and query parameters,
each appended to the base URL with a single trailing slash stripped; in
addition the data layer exposes session endpoints at
`/api/leetcode/session` (GET, POST, DELETE) that the specification does
not name. -/
theorem claim_C5_endpoints_amended :
    (getPOTDRequest = ⟨"GET", "/api/potd", []⟩) ∧
    (∀ slug : String, getReferencesRequest slug none =
      ⟨"GET", "/api/references", [("slug", slug)]⟩) ∧
    (∀ slug l : String, l ≠ "" → getReferencesRequest slug (some l) =
      ⟨"GET", "/api/references", [("slug", slug), ("lang", l)]⟩) ∧
    (submitSolutionRequest.method = "POST" ∧
      submitSolutionRequest.path = "/api/leetcode/submit") ∧
    (∀ (slug : String) (limit : Int),
      (getRecentSubmissionsRequest slug limit).method = "GET" ∧
      (getRecentSubmissionsRequest slug limit).path = "/api/leetcode/submissions" ∧
      (getRecentSubmissionsRequest slug limit).queryParams.map Prod.fst =
        ["slug", "limit"]) ∧
    (∀ base p : String, base.data.getLast? ≠ some '/' →
      requestUrl base p = base ++ p) ∧
    (requestUrl "http://localhost:8000/" "/api/potd" =
      "http://localhost:8000/api/potd") ∧
    (requestUrl "http://localhost:8000//" "/api/potd" =
      "http://localhost:8000//api/potd") ∧
    (getLeetCodeSessionStatusRequest = ⟨"GET", "/api/leetcode/session", []⟩ ∧
      storeLeetCodeSessionRequest = ⟨"POST", "/api/leetcode/session", []⟩ ∧
      clearLeetCodeSessionRequest = ⟨"DELETE", "/api/leetcode/session", []⟩) := by
  refine ⟨rfl, fun slug => rfl, ?_, ⟨rfl, rfl⟩, fun slug limit => ⟨rfl, rfl, rfl⟩,
    ?_, by decide, by decide, rfl, rfl, rfl⟩
  · intro slug l hl
    have : l.isEmpty = false := by
      rcases hb : l.isEmpty with _ | _
      · rfl
      · exact absurd ((String.isEmpty_iff l).mp hb) hl
    simp [getReferencesRequest, this]
  · intro base p h
    simp [requestUrl, stripTrailingSlash, h]

/-- C5 amended, witnessed: a references request with a language carries
both parameters. -/
theorem claim_C5_endpoints_amended_witness :
    getReferencesRequest "two-sum" (some "python") =
      ⟨"GET", "/api/references", [("slug", "two-sum"), ("lang", "python")]⟩ :=
  claim_C5_endpoints_amended.2.2.1 "two-sum" "python" (by decide)

/-- C1 counterexample: with an empty step list, a null result and an
empty-string (but non-null) error, the persistence effect removes the
key, although the claim allows removal only when the error is null. -/
theorem claim_C1_counterexample :
    persistSnapshot (some "two-sum") [] none (some "") =
        some (StorageOp.removeItem "leetcode-submission:two-sum") ∧
      (some "" : Option String) ≠ none := by
  refine ⟨by decide, by simp⟩

/-- C1 amended: for a truthy slug the snapshot under
`leetcode-submission:<slug>` is removed exactly when the step list is
empty, the result is null and the error is null or the empty string,
and in every other case it is overwritten with the latest
steps/result/error; a falsy slug performs no storage operation. -/
theorem claim_C1_persist_amended :
    ∀ (slug : String) (steps : List SubmissionStep)
      (result : Option SubmissionResult) (error : Option String),
      slug ≠ "" →
      (persistSnapshot (some slug) steps result error =
          some (StorageOp.removeItem (getStorageKey slug)) ↔
        steps = [] ∧ result = none ∧ (error = none ∨ error = some "")) ∧
      (¬(steps = [] ∧ result = none ∧ (error = none ∨ error = some "")) →
        persistSnapshot (some slug) steps result error =
          some (StorageOp.setItem (getStorageKey slug) ⟨steps, result, error⟩)) ∧
      persistSnapshot none steps result error = none := by
  intro slug steps result error hslug
  have hs : jsFalsyStr (some slug) = false := jsFalsyStr_some_ne hslug
  have hcond : (steps.isEmpty && result.isNone && jsFalsyStr error) = true ↔
      steps = [] ∧ result = none ∧ (error = none ∨ error = some "") := by
    simp [List.isEmpty_iff, Option.isNone_iff_eq_none, jsFalsyStr_iff, and_assoc]
  have hred : persistSnapshot (some slug) steps result error =
      if (steps.isEmpty && result.isNone && jsFalsyStr error) = true
      then some (StorageOp.removeItem (getStorageKey slug))
      else some (StorageOp.setItem (getStorageKey slug) ⟨steps, result, error⟩) := by
    simp [persistSnapshot, hs]
  refine ⟨?_, ?_, by simp [persistSnapshot, jsFalsyStr]⟩
  · rw [hred]
    by_cases hc : (steps.isEmpty && result.isNone && jsFalsyStr error) = true
    · rw [if_pos hc]
      simpa using hcond.mp hc
    · rw [if_neg hc]
      simp only [Option.some.injEq]
      constructor
      · intro h
        cases h
      · intro h
        exact absurd (hcond.mpr h) hc
  · intro h
    rw [hred, if_neg fun hc => h (hcond.mp hc)]

/-- C1 amended, witnessed: a state with the start step present is
written back under the question's key. -/
theorem claim_C1_persist_amended_witness :
    persistSnapshot (some "two-sum") [startStep] none none =
      some (StorageOp.setItem (getStorageKey "two-sum")
        ⟨[startStep], none, none⟩) :=
  (claim_C1_persist_amended "two-sum" [startStep] none none
    (by decide)).2.1 (by simp)

/-- C2: with a truthy slug and code snippet, the workflow issues the
extension cookie fetch, then the backend session store, then the
submission request, then the history reload, in that order; if the
cookie fetch or the session store fails, the submission request is
never issued, the step list and the result are reset to empty/null and
only the error message is recorded. -/
theorem claim_C2_workflow_order :
    ∀ (slug code lang : String)
      (fetchTokens : Except String (String × String))
      (store : String → String → Except String Unit)
      (submit : SubmitSolutionPayload → Except String SubmitSolutionResponse),
      slug ≠ "" → code ≠ "" →
      (∀ m, fetchTokens = .error m →
        handleSubmit (some slug) (some code) lang fetchTokens store submit =
          ([.fetchCookies], ⟨[], none, some m⟩)) ∧
      (∀ s c m, fetchTokens = .ok (s, c) → store s c = .error m →
        handleSubmit (some slug) (some code) lang fetchTokens store submit =
          ([.fetchCookies, .storeSession s c], ⟨[], none, some m⟩)) ∧
      (∀ s c, fetchTokens = .ok (s, c) → store s c = .ok () →
        (handleSubmit (some slug) (some code) lang fetchTokens store submit).1 =
          [.fetchCookies, .storeSession s c,
            .submitCall ⟨slug, lang, code⟩, .loadSubmissions]) := by
  intro slug code lang fetchTokens store submit hslug hcode
  have hs : jsFalsyStr (some slug) = false := jsFalsyStr_some_ne hslug
  have hc : jsFalsyStr (some code) = false := jsFalsyStr_some_ne hcode
  refine ⟨?_, ?_, ?_⟩
  · intro m hm
    subst hm
    simp [handleSubmit, hs, hc]
  · intro s c m hm hst
    subst hm
    simp [handleSubmit, hs, hc, hst]
  · intro s c hm hst
    subst hm
    rcases hsub : submit ⟨slug, lang, code⟩ with m | resp <;>
      simp [handleSubmit, hs, hc, hst, hsub]

/-- C2, witnessed: when the extension fetch fails, only the fetch is
issued and the state carries just the error. -/
theorem claim_C2_workflow_order_witness :
    handleSubmit (some "two-sum") (some "print(1)") "python"
        (Except.error "boom") (fun _ _ => Except.ok ())
        (fun _ => Except.error "unused") =
      ([WorkflowCall.fetchCookies], ⟨[], none, some "boom"⟩) :=
  (claim_C2_workflow_order "two-sum" "print(1)" "python" (Except.error "boom")
    (fun _ _ => Except.ok ()) (fun _ => Except.error "unused")
    (by decide) (by decide)).1 "boom" rfl

/-- C3: absent a runtime error the service worker answers with `ok` true
exactly when both a LEETCODE_SESSION and a csrftoken cookie are present,
carrying the (first-found) value of each and null for an absent one; the
content script relays the payload unchanged, substituting an
`ok: false` payload carrying the runtime error, or the fixed
no-response error when no response arrives. -/
theorem claim_C3_cookie_relay :
    (∀ cookies : List Cookie,
      ((serviceWorkerRespond none cookies).ok = true ↔
        (∃ ck ∈ cookies, ck.name = "LEETCODE_SESSION") ∧
          (∃ ck ∈ cookies, ck.name = "csrftoken")) ∧
      (serviceWorkerRespond none cookies).leetcodeSession =
        (cookies.find? fun ck => ck.name = "LEETCODE_SESSION").map Cookie.value ∧
      (serviceWorkerRespond none cookies).csrfToken =
        (cookies.find? fun ck => ck.name = "csrftoken").map Cookie.value ∧
      (serviceWorkerRespond none cookies).error = none) ∧
    (∀ (e : String) (resp : Option ExtPayload),
      contentScriptRelay (some e) resp = ⟨false, some e, none, none⟩) ∧
    (∀ p : ExtPayload, contentScriptRelay none (some p) = p) ∧
    contentScriptRelay none none =
      ⟨false, some "No response from extension.", none, none⟩ := by
  refine ⟨?_, fun e resp => rfl, fun p => rfl, rfl⟩
  intro cookies
  refine ⟨?_, rfl, rfl, rfl⟩
  show ((cookies.find? fun ck => ck.name = "LEETCODE_SESSION").isSome &&
      (cookies.find? fun ck => ck.name = "csrftoken").isSome) = true ↔ _
  simp [List.find?_isSome]

/-- C7: the session connector calls the backend session store exactly
when the payload is ok with both tokens present and nonempty; otherwise
it records an error and never calls the store; and it reports success
only after a store it actually called succeeded. -/
theorem claim_C7_session_connector :
    ∀ (payload : ExtPayload) (store : String → String → Except String Unit),
      ((connectorHandle payload store).storeCalled = true ↔
        payload.ok = true ∧ jsFalsyStr payload.leetcodeSession = false ∧
          jsFalsyStr payload.csrfToken = false) ∧
      ((connectorHandle payload store).storeCalled = false →
        (connectorHandle payload store).status = .error ∧
          (connectorHandle payload store).message.isSome = true) ∧
      ((connectorHandle payload store).status = .success →
        (connectorHandle payload store).storeCalled = true ∧
          store (payload.leetcodeSession.getD "") (payload.csrfToken.getD "") =
            .ok ()) := by
  intro payload store
  rcases hok : payload.ok with _ | _
  · simp [connectorHandle, hok]
  · rcases hfs : jsFalsyStr payload.leetcodeSession with _ | _
    · rcases hfc : jsFalsyStr payload.csrfToken with _ | _
      · rcases hst : store (payload.leetcodeSession.getD "")
            (payload.csrfToken.getD "") with m | u
        · simp [connectorHandle, hok, hfs, hfc, hst]
        · simp [connectorHandle, hok, hfs, hfc, hst]
      · simp [connectorHandle, hok, hfs, hfc]
    · simp [connectorHandle, hok, hfs]

/-- C7, witnessed: a non-ok payload ends in an error status with a
message and without a store call. -/
theorem claim_C7_session_connector_witness :
    (connectorHandle ⟨false, some "nope", none, none⟩
        fun _ _ => Except.ok ()).status = ConnectorStatus.error ∧
      (connectorHandle ⟨false, some "nope", none, none⟩
        fun _ _ => Except.ok ()).message.isSome = true :=
  (claim_C7_session_connector ⟨false, some "nope", none, none⟩
    (fun _ _ => Except.ok ())).2.1 (by decide)

/-- C8 counterexample: on `<code><br></code>` the extractor matches the
code element, whose inner text `<br>` is not blank, but HTML decoding
turns it into a newline and the trailing trim into the empty string, so
the extractor returns an empty — not null, not non-blank — string. -/
theorem claim_C8_counterexample :
    extractCodeFromContent (some "<code><br></code>") = some "" ∧
      ¬∃ c ∈ ("" : String).data, isJsWs c = false := by
  refine ⟨by decide, by simp⟩

/-- C8 amended: `extractCodeFromContent` never returns a nonempty string
of only whitespace — its result is null, the empty string (reachable
when HTML decoding erases the inner text), or a string containing a
non-whitespace character — and the derived `displayCode` satisfies the
same property. -/
theorem claim_C8_nonblank_amended :
    (∀ (input : Option String) (s : String),
      extractCodeFromContent input = some s →
        s = "" ∨ ∃ c ∈ s.data, isJsWs c = false) ∧
    (∀ (code content : Option String) (s : String),
      displayCode code content = some s →
        s = "" ∨ ∃ c ∈ s.data, isJsWs c = false) := by
  constructor
  · intro input s h
    obtain ⟨t, rfl⟩ := extractCodeFromContent_trimEnd h
    exact jsTrimEnd_blank_or_witness t
  · intro code content s h
    obtain ⟨t, rfl⟩ := displayCode_trimEnd h
    exact jsTrimEnd_blank_or_witness t

/-- C8 amended, witnessed: the extractor's output on a fenced block is
non-blank. -/
theorem claim_C8_nonblank_amended_witness :
    "print(1)" = "" ∨ ∃ c ∈ ("print(1)" : String).data, isJsWs c = false :=
  claim_C8_nonblank_amended.1 (some "```py\nprint(1)\n```") "print(1)" (by decide)

/-- C4: `extractCodeFromContent` coincides with the specification's
description — normalize escape sequences first, then the body of the
first fenced code block when that body is not blank, otherwise the
HTML-decoded inner text of the first code element when that inner text
is not blank, otherwise null — and returns null on null and on empty
input. -/
theorem claim_C4_extract_matches_spec :
    (∀ input : Option String,
      extractCodeFromContent input = extractCodeClaimed input) ∧
      extractCodeFromContent none = none ∧
      extractCodeFromContent (some "") = none := by
  have hfb : ∀ content : String, htmlCodeFallback content =
      (match firstCodeInner content with
       | some inner =>
         if (jsTrim inner).isEmpty then none
         else some (jsTrimEnd (decodeHtml (jsTrim inner)))
       | none => none) := by
    intro content
    unfold htmlCodeFallback
    rcases firstCodeInner content with _ | inner
    · rfl
    · rcases hb : (jsTrim inner).isEmpty with _ | _ <;> simp [hb]
  refine ⟨?_, rfl, rfl⟩
  intro input
  rcases input with _ | raw
  · rfl
  · by_cases hraw : raw.isEmpty = true
    · simp [extractCodeFromContent, extractCodeClaimed, hraw]
    · simp only [extractCodeFromContent, extractCodeClaimed, hraw, if_false]
      rcases hf : firstFenceBody (normalizeEscapes raw) with _ | body
      · simp [hf, hfb]
      · rcases hb : (jsTrim body).isEmpty with _ | _ <;> simp [hf, hb, hfb]

end DailyCodePush
